import Mathlib

/-!
Verification of the concurrency/resilience core of the github-mcp-server
repository: the GitHub rate limiter (`GitHubRateLimiter`), the retry /
exponential-backoff executor (`GitHubService.executeWithRateLimiting`), the
cancellable timeout primitive (`createSafeTimeout`) and the promise-chaining
`AsyncMutex`.  Every definition below is a shallow embedding of the
corresponding TypeScript source; JavaScript numbers that can be `NaN` are
modelled as `Option Int` (`none` = `NaN`), and JavaScript string/number
truthiness and `parseInt` are modelled explicitly.
-/

namespace GithubMcpServer

/-! ## JavaScript value primitives -/

/-- A JavaScript number restricted to the integral values this code computes:
`none` models `NaN`, `some v` a finite integer. -/
abbrev JsNum := Option Int

/-- JavaScript `+` on our number model: `NaN` is absorbing. -/
def jsAdd : JsNum → JsNum → JsNum
  | some a, some b => some (a + b)
  | _, _ => none

/-- JavaScript `-` on our number model: `NaN` is absorbing. -/
def jsSub : JsNum → JsNum → JsNum
  | some a, some b => some (a - b)
  | _, _ => none

/-- JavaScript `*` on our number model: `NaN` is absorbing. -/
def jsMul : JsNum → JsNum → JsNum
  | some a, some b => some (a * b)
  | _, _ => none

/-- JavaScript `<=`: any comparison involving `NaN` is `false`. -/
def jsLe : JsNum → JsNum → Bool
  | some a, some b => decide (a ≤ b)
  | _, _ => false

/-- JavaScript `>`: any comparison involving `NaN` is `false`. -/
def jsGt : JsNum → JsNum → Bool
  | some a, some b => decide (b < a)
  | _, _ => false

/-- The delay actually used by `setTimeout(cb, ms)`: `NaN` and negative
durations are clamped to `0` (the timer fires on the next tick). -/
def jsTimeoutDelay : JsNum → Int
  | none => 0
  | some v => if v < 0 then 0 else v

/-- JavaScript truthiness of a possibly-`undefined` string: `undefined` and
the empty string are falsy. -/
def jsTruthyString : Option String → Bool
  | none => false
  | some s => !(s == "")

/-- JavaScript `a || b` for a possibly-`undefined` string `a` with default
`b`: the default is taken when `a` is `undefined` or empty (falsy). -/
def jsOrString : Option String → String → String
  | none, d => d
  | some s, d => if s == "" then d else s

/-- JavaScript `a || b` for a possibly-`undefined` number `a` with default
`b`: the default is taken when `a` is `undefined` or `0` (falsy). -/
def jsOrInt : Option Int → Int → Int
  | none, d => d
  | some v, d => if v == 0 then d else v

/-- Numeric value of a list of decimal digit characters. -/
def digitsToNat (l : List Char) : Nat :=
  l.foldl (fun acc c => acc * 10 + (c.toNat - 48)) 0

/-- JavaScript `parseInt(s, 10)`: skip leading whitespace, read an optional
sign, then the longest prefix of decimal digits; `NaN` (= `none`) when no
digit is found. -/
def jsParseInt (s : String) : JsNum :=
  let cs := s.toList.dropWhile (fun c => c == ' ' || c == '\t' || c == '\n' || c == '\r')
  match cs with
  | '-' :: rest =>
      let d := rest.takeWhile Char.isDigit
      if d.isEmpty then none else some (-(digitsToNat d : Int))
  | '+' :: rest =>
      let d := rest.takeWhile Char.isDigit
      if d.isEmpty then none else some ((digitsToNat d : Int))
  | _ =>
      let d := cs.takeWhile Char.isDigit
      if d.isEmpty then none else some ((digitsToNat d : Int))

/-- JavaScript `String.prototype.includes`. -/
def jsIncludes (s sub : String) : Bool :=
  let cs := s.toList
  let cp := sub.toList
  (List.range (cs.length + 1)).any (fun i => cp.isPrefixOf (cs.drop i))

/-! ## Error taxonomy (`error.definition.types.ts`, `error.handling.utility.ts`) -/

/-- `ErrorCategoryType` enumeration. -/
inductive ErrorCategoryType
  | CATEGORY_VALIDATION
  | CATEGORY_AUTHENTICATION
  | CATEGORY_GITHUB_API
  | CATEGORY_SYSTEM
  | CATEGORY_UNKNOWN
deriving DecidableEq, Repr

/-- The fields of `StandardizedApplicationErrorObject` that the claims are
about (timestamp, severity and the open context map are carried along in the
source but never branched on by the core). -/
structure StandardizedApplicationErrorObject where
  errorMessage : String
  errorCode : String
  errorCategory : ErrorCategoryType
deriving DecidableEq, Repr

/-- `ApplicationErrorHandlingUtility.createGithubApiError`. -/
def createGithubApiError (message : String) : StandardizedApplicationErrorObject :=
  { errorMessage := message
    errorCode := "GITHUB_API_ERROR"
    errorCategory := ErrorCategoryType.CATEGORY_GITHUB_API }

/-! ## Rate limiter (`GitHubRateLimiter`) -/

/-- `RateLimitInfo` of the rate limiter.  Fields are JavaScript numbers: an
update parsed from unparseable headers really can store `NaN` here. -/
structure RateLimitInfo where
  remaining : JsNum
  resetTime : JsNum
  limit : JsNum
deriving DecidableEq, Repr

/-- `RateLimitingConfiguration` (`rateLimiting` section of the application
configuration). -/
structure RateLimitingConfiguration where
  enabled : Bool
  minRemaining : Int
  resetBufferMs : Int
deriving DecidableEq, Repr

/-- Observable outcome of one `checkRateLimit()` call: return immediately,
block on `setTimeout` for the given number of milliseconds and then return,
or throw the given GitHub-API error without blocking. -/
inductive CheckOutcome
  | proceed
  | blockFor (waitTimeMs : Int)
  | failFast (error : StandardizedApplicationErrorObject)
deriving DecidableEq, Repr

/-- Whether a `checkRateLimit` outcome is the thrown fail-fast error. -/
def CheckOutcome.isFailFast : CheckOutcome → Bool
  | .failFast _ => true
  | _ => false

/-- `GitHubRateLimiter.checkRateLimit`, as a function of the configuration,
the current `rateLimitInfo` and the value of `Date.now()`.  The second
component of the result is the `rateLimitInfo` after the call; the method
body never assigns it, so every exit path returns it unchanged. -/
def checkRateLimit (config : RateLimitingConfiguration) (st : RateLimitInfo)
    (now : Int) : CheckOutcome × RateLimitInfo :=
  if !config.enabled then
    (CheckOutcome.proceed, st)
  else if jsLe st.remaining (some config.minRemaining) then
    let waitTime := jsAdd (jsSub st.resetTime (some now)) (some config.resetBufferMs)
    if jsGt waitTime (some 0) then
      if jsGt waitTime (some 60000) then
        (CheckOutcome.failFast (createGithubApiError
          "GitHub API rate limit exceeded, cannot proceed with request"), st)
      else
        (CheckOutcome.blockFor (jsTimeoutDelay waitTime), st)
    else
      (CheckOutcome.proceed, st)
  else
    (CheckOutcome.proceed, st)

/-- The three `x-ratelimit-*` response headers consumed by
`updateRateLimitFromHeaders`; `none` models an absent (`undefined`) header. -/
structure RateLimitHeaders where
  remaining : Option String
  reset : Option String
  limit : Option String
deriving DecidableEq, Repr

/-- Whether all three quota headers are present. -/
def RateLimitHeaders.complete (h : RateLimitHeaders) : Bool :=
  h.remaining.isSome && h.reset.isSome && h.limit.isSome

/-- The `RateLimitInfo` built from three present header values: each is fed
to `parseInt` and the reset time is converted from epoch seconds to
milliseconds.  Unparseable values yield `NaN` fields. -/
def parsedRateLimitInfo (r rt l : String) : RateLimitInfo :=
  { remaining := jsParseInt r
    resetTime := jsMul (jsParseInt rt) (some 1000)
    limit := jsParseInt l }

/-- `GitHubRateLimiter.updateRateLimitFromHeaders`: the state is replaced
wholesale when all three headers are present (`!== undefined`) and left
untouched otherwise.  Presence is the only guard: the parsed values are not
checked for `NaN`. -/
def updateRateLimitFromHeaders (headers : RateLimitHeaders) (st : RateLimitInfo) :
    RateLimitInfo :=
  match headers.remaining, headers.reset, headers.limit with
  | some r, some rt, some l => parsedRateLimitInfo r rt l
  | _, _, _ => st

/-- Folding a sequence of `updateRateLimitFromHeaders` calls over a state, in
application order (the limiter's mutex serializes the applications). -/
def applyHeaderUpdates (st : RateLimitInfo) (l : List RateLimitHeaders) : RateLimitInfo :=
  l.foldl (fun s h => updateRateLimitFromHeaders h s) st

/-- Observable outcome of one `handleRateLimitExceeded()` call: block on
`setTimeout` (we record both the raw computed `waitTime`, which can be `NaN`,
and the actual clamped timer delay), or throw without blocking. -/
inductive WaitOutcome
  | waited (timerDelayMs : Int) (waitTime : JsNum)
  | failFast (error : StandardizedApplicationErrorObject)
deriving DecidableEq, Repr

/-- `GitHubRateLimiter.handleRateLimitExceeded`, as a function of the
configuration, the current `rateLimitInfo`, `Date.now()` and the optional
`retry-after` header value.  As with `checkRateLimit` the method never
assigns `rateLimitInfo`, so the returned state is unchanged on every path. -/
def handleRateLimitExceeded (config : RateLimitingConfiguration) (st : RateLimitInfo)
    (now : Int) (retryAfter : Option String) : WaitOutcome × RateLimitInfo :=
  let waitTime : JsNum :=
    if jsTruthyString retryAfter then
      jsMul (jsParseInt (retryAfter.getD "")) (some 1000)
    else if jsGt st.resetTime (some now) then
      jsAdd (jsSub st.resetTime (some now)) (some config.resetBufferMs)
    else
      some config.resetBufferMs
  if jsGt waitTime (some 120000) then
    (WaitOutcome.failFast (createGithubApiError
      "GitHub API rate limit exceeded, retry not possible"), st)
  else
    (WaitOutcome.waited (jsTimeoutDelay waitTime) waitTime, st)

/-! ## Retry / backoff executor (`GitHubService.executeWithRateLimiting`) -/

/-- A JavaScript value thrown by the wrapped API call (or by the rate
limiter), as far as `executeWithRateLimiting` can observe it:
* `apiError` is an object for which the `isGitHubApiError` type guard holds
  (it has a `status` or a `message` property); it optionally carries a
  `status`, a `message` and a `response.headers['retry-after']` value;
* `plainError` is an `instanceof Error` value without those properties;
* `standardizedError` is a thrown `StandardizedApplicationErrorObject`
  (a plain object with neither `status` nor `message`, failing the guard and
  stringifying to `"[object Object]"`);
* `otherValue` is any other value, observed through `String(error)`. -/
inductive ThrownError
  | apiError (status : Option Int) (message : Option String) (retryAfterHeader : Option String)
  | plainError (message : String)
  | standardizedError (e : StandardizedApplicationErrorObject)
  | otherValue (stringified : String)
deriving DecidableEq, Repr

/-- The `statusCode` / `errorMessage` / `isRateLimitError` triple extracted
in the `catch` block of `executeWithRateLimiting`. -/
structure ClassifiedFailure where
  statusCode : Int
  errorMessage : String
  isRateLimitError : Bool
deriving DecidableEq, Repr

/-- The error-information extraction of the `catch` block: `statusCode`
defaults to `0`, `errorMessage` to `'GitHub API error'` for guard-passing
objects, and `isRateLimitError` is set only in the guard-passing branch. -/
def classifyError : ThrownError → ClassifiedFailure
  | ThrownError.apiError status message _ =>
      let statusCode := jsOrInt status 0
      let errorMessage := jsOrString message "GitHub API error"
      { statusCode := statusCode
        errorMessage := errorMessage
        isRateLimitError := statusCode == 403 && jsIncludes errorMessage "API rate limit exceeded" }
  | ThrownError.plainError m =>
      { statusCode := 0, errorMessage := m, isRateLimitError := false }
  | ThrownError.standardizedError _ =>
      { statusCode := 0, errorMessage := "[object Object]", isRateLimitError := false }
  | ThrownError.otherValue s =>
      { statusCode := 0, errorMessage := s, isRateLimitError := false }

/-- `const isTransientError = statusCode >= 500 || statusCode === 429 ||
isRateLimitError`. -/
def isTransientError (c : ClassifiedFailure) : Bool :=
  decide (500 ≤ c.statusCode) || c.statusCode == 429 || c.isRateLimitError

/-- The error message used by `handleGitHubApiError` (its default for a
guard-passing object without a message is `'Unknown GitHub API error'`,
unlike the `catch` block's `'GitHub API error'`). -/
def handlerErrorMessage : ThrownError → String
  | ThrownError.apiError _ message _ => jsOrString message "Unknown GitHub API error"
  | ThrownError.plainError m => m
  | ThrownError.standardizedError _ => "[object Object]"
  | ThrownError.otherValue s => s

/-- `GitHubService.handleGitHubApiError`: wraps the original error into a
GITHUB_API-category standardized error naming the operation. -/
def handleGitHubApiError (error : ThrownError) (operationName : String) :
    StandardizedApplicationErrorObject :=
  createGithubApiError
    ("GitHub API error in " ++ operationName ++ ": " ++ handlerErrorMessage error)

/-- The `retry-after` header read off a thrown error's `response.headers`
in the rate-limit branch of the executor. -/
def retryAfterOf : ThrownError → Option String
  | ThrownError.apiError _ _ ra => ra
  | _ => none

/-- Result of one invocation of the wrapped `apiCall` thunk: a resolved
response (with its quota headers when the response has a `headers` field) or
a thrown error. -/
inductive CallResult (T : Type)
  | ok (headers : Option RateLimitHeaders) (value : T)
  | err (error : ThrownError)

/-- Observable events of one `executeWithRateLimiting` run, in order. -/
inductive RetryEvent
  | rateLimitCheck (outcome : CheckOutcome)
  | invocation (attemptIndex : Nat)
  | backoffWait (delayMs : Int)
  | quotaWait (retryAfter : Option String) (outcome : WaitOutcome)
deriving DecidableEq, Repr

/-- Final outcome of one `executeWithRateLimiting` run:
* `success` returns the response value together with the `rateLimitInfo`
  after the header update;
* `classifiedError` is the error thrown via `handleGitHubApiError`;
* `uncaughtError` is an error thrown by `handleRateLimitExceeded` inside the
  `catch` block, which propagates out of the executor unwrapped. -/
inductive ExecResult (T : Type)
  | success (value : T) (finalState : RateLimitInfo)
  | classifiedError (error : StandardizedApplicationErrorObject)
  | uncaughtError (error : StandardizedApplicationErrorObject)

/-- The `while (true)` loop of `executeWithRateLimiting`, parameterized by
the retry bound and base delay (the source fixes them to the constants
below) and by the current value of `retryCount`.  `now n` abstracts the
`Date.now()` readings of iteration `n`, and `calls n` the result of the
`n`-th invocation of the thunk.  The run's events are returned with its
outcome. -/
def executeLoop {T : Type} (config : RateLimitingConfiguration) (st : RateLimitInfo)
    (now : Nat → Int) (operationName : String) (calls : Nat → CallResult T)
    (maxRetries : Nat) (baseDelay : Int) (retryCount : Nat) :
    List RetryEvent × ExecResult T :=
  match (checkRateLimit config st (now retryCount)).fst with
  | CheckOutcome.failFast e =>
      ([RetryEvent.rateLimitCheck (CheckOutcome.failFast e)],
       ExecResult.classifiedError
         (handleGitHubApiError (ThrownError.standardizedError e) operationName))
  | check =>
    match calls retryCount with
    | CallResult.ok headers v =>
        let stAfter := match headers with
          | some h => updateRateLimitFromHeaders h st
          | none => st
        ([RetryEvent.rateLimitCheck check, RetryEvent.invocation retryCount],
         ExecResult.success v stAfter)
    | CallResult.err error =>
        let c := classifyError error
        if h : isTransientError c = true ∧ retryCount < maxRetries then
          let delay := baseDelay * 2 ^ (retryCount + 1)
          if c.isRateLimitError then
            let ra := retryAfterOf error
            match (handleRateLimitExceeded config st (now retryCount) ra).fst with
            | WaitOutcome.failFast e2 =>
                ([RetryEvent.rateLimitCheck check, RetryEvent.invocation retryCount,
                  RetryEvent.quotaWait ra (WaitOutcome.failFast e2)],
                 ExecResult.uncaughtError e2)
            | WaitOutcome.waited d w =>
                let rest := executeLoop config st now operationName calls
                  maxRetries baseDelay (retryCount + 1)
                (RetryEvent.rateLimitCheck check :: RetryEvent.invocation retryCount ::
                  RetryEvent.quotaWait ra (WaitOutcome.waited d w) :: rest.fst, rest.snd)
          else
            let rest := executeLoop config st now operationName calls
              maxRetries baseDelay (retryCount + 1)
            (RetryEvent.rateLimitCheck check :: RetryEvent.invocation retryCount ::
              RetryEvent.backoffWait delay :: rest.fst, rest.snd)
        else
          ([RetryEvent.rateLimitCheck check, RetryEvent.invocation retryCount],
           ExecResult.classifiedError (handleGitHubApiError error operationName))
termination_by maxRetries + 1 - retryCount
decreasing_by all_goals (obtain ⟨h1, h2⟩ := h; omega)

/-- `MAX_RETRY_ATTEMPTS` constant of the GitHub service. -/
def MAX_RETRY_ATTEMPTS : Nat := 3

/-- `BASE_RETRY_DELAY_MS` constant of the GitHub service. -/
def BASE_RETRY_DELAY_MS : Int := 1000

/-- `GitHubService.executeWithRateLimiting`: the loop started with
`retryCount = 0` and the source's constants. -/
def executeWithRateLimiting {T : Type} (config : RateLimitingConfiguration)
    (st : RateLimitInfo) (now : Nat → Int) (operationName : String)
    (calls : Nat → CallResult T) : List RetryEvent × ExecResult T :=
  executeLoop config st now operationName calls MAX_RETRY_ATTEMPTS BASE_RETRY_DELAY_MS 0

/-- Number of invocations of the wrapped thunk recorded in a run. -/
def invocationCount (tr : List RetryEvent) : Nat :=
  (tr.filter fun e => match e with
    | RetryEvent.invocation _ => true
    | _ => false).length

/-- The exponential-backoff delays of a run, in order. -/
def backoffDelays (tr : List RetryEvent) : List Int :=
  tr.filterMap fun e => match e with
    | RetryEvent.backoffWait d => some d
    | _ => none

/-- Whether a run contains any waiting event at all (a blocking rate-limit
check, a backoff wait or a quota wait that actually blocked). -/
def hasAnyWait (tr : List RetryEvent) : Bool :=
  tr.any fun e => match e with
    | RetryEvent.backoffWait _ => true
    | RetryEvent.quotaWait _ (WaitOutcome.waited _ _) => true
    | RetryEvent.rateLimitCheck (CheckOutcome.blockFor _) => true
    | _ => false

/-- The spec's transient/retryable criterion, written from the spec's words
for comparison with the code's `isTransientError`: status code at least 500,
or exactly 429, or exactly 403 with a message indicating API quota
exhaustion. -/
def specTransientCriterion (c : ClassifiedFailure) : Bool :=
  decide (500 ≤ c.statusCode) || c.statusCode == 429 ||
    (c.statusCode == 403 && jsIncludes c.errorMessage "API rate limit exceeded")

/-! ## Cancellable timeout primitive (`createSafeTimeout`) -/

/-- Events observable on one `createSafeTimeout(ms)` value: the underlying
`setTimeout` callback runs, or the client calls `cancel()`.  (The callback
can only run while the timer is still registered; a `timerFires` event on an
unregistered timer is a no-op stimulus.) -/
inductive TimeoutEvent
  | timerFires
  | cancelCall
deriving DecidableEq, Repr

/-- State of one `createSafeTimeout` value: the `cancelled` flag, whether
the `setTimeout` registration is still live (i.e. `clearTimeout` has not run
and the callback has not fired), and how many times `resolve` has run. -/
structure TimeoutState where
  cancelled : Bool
  timerActive : Bool
  resolveCount : Nat
deriving DecidableEq, Repr

/-- State right after `createSafeTimeout` returns. -/
def initialTimeoutState : TimeoutState :=
  { cancelled := false, timerActive := true, resolveCount := 0 }

/-- One step of the timeout's behaviour, straight from the source: the fired
callback resolves only `if (!cancelled)`, and `cancel` is guarded by
`if (!cancelled)` and then sets the flag and clears the timer. -/
def timeoutStep (s : TimeoutState) : TimeoutEvent → TimeoutState
  | TimeoutEvent.timerFires =>
      if s.timerActive then
        { s with
          timerActive := false
          resolveCount := if s.cancelled then s.resolveCount else s.resolveCount + 1 }
      else s
  | TimeoutEvent.cancelCall =>
      if s.cancelled then s
      else { s with cancelled := true, timerActive := false }

/-- Run a sequence of events from a given state. -/
def runTimeoutFrom (s : TimeoutState) (tr : List TimeoutEvent) : TimeoutState :=
  tr.foldl timeoutStep s

/-- Run a sequence of events on a freshly created timeout. -/
def runTimeout (tr : List TimeoutEvent) : TimeoutState :=
  runTimeoutFrom initialTimeoutState tr

/-- Invariant of a `createSafeTimeout` state: an armed timer has not yet
resolved; an untouched (uncancelled) disarmed timer has resolved exactly
once; the promise never resolves more than once; cancellation disarms the
timer. -/
def TimeoutInv (s : TimeoutState) : Prop :=
  (s.timerActive = true → s.resolveCount = 0) ∧
  (s.cancelled = false → s.timerActive = false → s.resolveCount = 1) ∧
  s.resolveCount ≤ 1 ∧
  (s.cancelled = true → s.timerActive = false)

/-! ## Promise-chaining mutex (`AsyncMutex`)

`acquire()` evaluates `this._locking` synchronously and suspends on it; its
continuation (which sets `_locked`, installs a fresh pending `_locking`
promise and hands back the release function) runs as a microtask once the
awaited promise is fulfilled.  We model promises by generation numbers:
generation 0 is the initially resolved `Promise.resolve()`, and each
continuation installs a fresh generation whose `resolve` is the release
function. -/

/-- The mutex's own fields: which promise generation `_locking` references,
which generations are fulfilled, the next fresh generation, and `_locked`. -/
structure MutexModelState where
  lockingGen : Nat
  fulfilled : List Nat
  nextGen : Nat
  locked : Bool
deriving DecidableEq, Repr

/-- Where one caller of `acquire()` stands. -/
inductive CallerPhase
  | idle
  | awaitingLock (gen : Nat)
  | inCriticalSection (gen : Nat)
  | released
deriving DecidableEq, Repr

/-- A two-caller scenario state. -/
structure MutexScenarioState where
  mutex : MutexModelState
  callerA : CallerPhase
  callerB : CallerPhase
deriving DecidableEq, Repr

/-- Freshly constructed `AsyncMutex` with two idle callers:
`_locking = Promise.resolve()` (generation 0, fulfilled). -/
def initialMutexScenario : MutexScenarioState :=
  { mutex := { lockingGen := 0, fulfilled := [0], nextGen := 1, locked := false }
    callerA := CallerPhase.idle
    callerB := CallerPhase.idle }

/-- Scheduler labels: a caller starts `acquire()` (running its synchronous
prefix up to `await this._locking`), a caller's continuation resumes (legal
only once the generation it awaited is fulfilled — exactly the JavaScript
microtask rule), or a caller invokes its release function. -/
inductive MutexLabel
  | callAcquire (isB : Bool)
  | resumeAcquire (isB : Bool)
  | callRelease (isB : Bool)
deriving DecidableEq, Repr

/-- Read one caller's phase. -/
def callerOf (s : MutexScenarioState) (isB : Bool) : CallerPhase :=
  if isB then s.callerB else s.callerA

/-- Replace one caller's phase. -/
def setCaller (s : MutexScenarioState) (isB : Bool) (p : CallerPhase) :
    MutexScenarioState :=
  if isB then { s with callerB := p } else { s with callerA := p }

/-- One scheduler step; `none` when the label is not enabled (in particular,
a continuation cannot resume before the promise it awaited is fulfilled). -/
def mutexStep (s : MutexScenarioState) : MutexLabel → Option MutexScenarioState
  | MutexLabel.callAcquire c =>
      match callerOf s c with
      | CallerPhase.idle =>
          some (setCaller s c (CallerPhase.awaitingLock s.mutex.lockingGen))
      | _ => none
  | MutexLabel.resumeAcquire c =>
      match callerOf s c with
      | CallerPhase.awaitingLock g =>
          if s.mutex.fulfilled.contains g then
            let fresh := s.mutex.nextGen
            some { setCaller s c (CallerPhase.inCriticalSection fresh) with
                   mutex := { lockingGen := fresh
                              fulfilled := s.mutex.fulfilled
                              nextGen := fresh + 1
                              locked := true } }
          else none
      | _ => none
  | MutexLabel.callRelease c =>
      match callerOf s c with
      | CallerPhase.inCriticalSection g =>
          some { setCaller s c CallerPhase.released with
                 mutex := { lockingGen := s.mutex.lockingGen
                            fulfilled := g :: s.mutex.fulfilled
                            nextGen := s.mutex.nextGen
                            locked := false } }
      | _ => none

/-- Run a schedule from the initial two-caller scenario. -/
def runMutexSchedule (labels : List MutexLabel) : Option MutexScenarioState :=
  labels.foldl (fun acc l => acc.bind (fun s => mutexStep s l)) (some initialMutexScenario)

/-- Whether a caller phase is "inside the critical section". -/
def CallerPhase.isInCriticalSection : CallerPhase → Bool
  | CallerPhase.inCriticalSection _ => true
  | _ => false

/-- The same-tick double-acquire schedule: both callers start `acquire()`
before either continuation has run, then both continuations run.  Every step
is the mandatory JavaScript behaviour, since both continuations were
registered on the already-fulfilled generation-0 promise. -/
def sameTickDoubleAcquire : List MutexLabel :=
  [MutexLabel.callAcquire false, MutexLabel.callAcquire true,
   MutexLabel.resumeAcquire false, MutexLabel.resumeAcquire true]

/-! ## Theorems for the claims -/

/-- Claim C1: `checkRateLimit` returns immediately when rate limiting is
disabled or `remaining > minRemaining`; when `remaining ≤ minRemaining` it
computes `waitTime = resetTime - now + resetBufferMs` and returns immediately
when `waitTime ≤ 0`, blocks for exactly `waitTime` ms when
`0 < waitTime ≤ 60000`, and fails fast with a GITHUB_API-category error
without blocking when `waitTime > 60000`.  The `rateLimitInfo` is returned
unchanged on every path. -/
theorem checkRateLimit_spec (enabled : Bool) (minR buf rem reset lim now : Int) :
    (enabled = false →
      checkRateLimit ⟨enabled, minR, buf⟩ ⟨some rem, some reset, some lim⟩ now =
        (CheckOutcome.proceed, ⟨some rem, some reset, some lim⟩)) ∧
    (minR < rem →
      checkRateLimit ⟨enabled, minR, buf⟩ ⟨some rem, some reset, some lim⟩ now =
        (CheckOutcome.proceed, ⟨some rem, some reset, some lim⟩)) ∧
    (enabled = true → rem ≤ minR → reset - now + buf ≤ 0 →
      checkRateLimit ⟨enabled, minR, buf⟩ ⟨some rem, some reset, some lim⟩ now =
        (CheckOutcome.proceed, ⟨some rem, some reset, some lim⟩)) ∧
    (enabled = true → rem ≤ minR → 0 < reset - now + buf → reset - now + buf ≤ 60000 →
      checkRateLimit ⟨enabled, minR, buf⟩ ⟨some rem, some reset, some lim⟩ now =
        (CheckOutcome.blockFor (reset - now + buf), ⟨some rem, some reset, some lim⟩)) ∧
    (enabled = true → rem ≤ minR → 60000 < reset - now + buf →
      checkRateLimit ⟨enabled, minR, buf⟩ ⟨some rem, some reset, some lim⟩ now =
        (CheckOutcome.failFast
          (createGithubApiError "GitHub API rate limit exceeded, cannot proceed with request"),
         ⟨some rem, some reset, some lim⟩) ∧
      (createGithubApiError
        "GitHub API rate limit exceeded, cannot proceed with request").errorCategory =
          ErrorCategoryType.CATEGORY_GITHUB_API) := by
  refine ⟨?_, ?_, ?_, ?_, ?_⟩
  · intro h
    subst h
    rfl
  · intro h
    unfold checkRateLimit
    simp only [jsLe, jsGt, jsAdd, jsSub, jsTimeoutDelay, decide_eq_true_eq]
    split_ifs with h1 h2 <;> first | rfl | omega | (exfalso; omega) | (exfalso; simp_all <;> omega)
  · intro h1 h2 h3
    subst h1
    unfold checkRateLimit
    simp only [jsLe, jsGt, jsAdd, jsSub, jsTimeoutDelay, decide_eq_true_eq]
    split_ifs <;> first | rfl | omega | (exfalso; omega) | (exfalso; simp_all <;> omega)
  · intro h1 h2 h3 h4
    subst h1
    unfold checkRateLimit
    simp only [jsLe, jsGt, jsAdd, jsSub, jsTimeoutDelay, decide_eq_true_eq]
    split_ifs <;>
      first | rfl | omega | (exfalso; omega) | (exfalso; simp_all <;> omega) | (rw [if_neg (by omega)])
  · intro h1 h2 h3
    subst h1
    refine ⟨?_, rfl⟩
    unfold checkRateLimit
    simp only [jsLe, jsGt, jsAdd, jsSub, jsTimeoutDelay, decide_eq_true_eq]
    split_ifs <;>
      first | rfl | omega | (exfalso; omega) | (exfalso; simp_all <;> omega) | (rw [if_neg (by omega)])

/-- Witness for C1: the spec's end-to-end scenario, quota state
`{remaining 10, resetTime now+2000, limit 5000}` with `minRemaining 50` and
`resetBufferMs 500` blocks for 2500 ms. -/
theorem checkRateLimit_spec_witness :
    checkRateLimit ⟨true, 50, 500⟩ ⟨some 10, some 2000, some 5000⟩ 0 =
      (CheckOutcome.blockFor 2500, ⟨some 10, some 2000, some 5000⟩) := by
  have h := (checkRateLimit_spec true 50 500 10 2000 5000 0).2.2.2.1
    rfl (by decide) (by decide) (by decide)
  simpa using h

/-- Claim C9: neither `checkRateLimit` nor `handleRateLimitExceeded` ever
modifies the `RateLimitInfo` on any path (including after their waits); only
the header-update path mutates it. -/
theorem rateLimiter_waits_preserve_state (config : RateLimitingConfiguration)
    (st : RateLimitInfo) (now : Int) (retryAfter : Option String) :
    (checkRateLimit config st now).snd = st ∧
    (handleRateLimitExceeded config st now retryAfter).snd = st := by
  constructor
  · simp only [checkRateLimit, jsLe, jsGt, jsAdd, jsSub]
    split_ifs <;> rfl
  · simp only [handleRateLimitExceeded, jsTruthyString, jsGt, jsAdd, jsSub, jsMul]
    split_ifs <;> rfl

/-- Claim C10: an unparseable non-empty `retry-after` value makes `waitTime`
`NaN`; the `waitTime > 120000` ceiling comparison is then false, so the call
neither fails fast nor falls back to the reset-time/buffer wait, and the
`NaN` duration handed to `setTimeout` is clamped to 0, so the call returns
almost immediately. -/
theorem handleRateLimitExceeded_nan_retryAfter (config : RateLimitingConfiguration)
    (st : RateLimitInfo) (now : Int) (s : String)
    (hne : (s == "") = false) (hnan : jsParseInt s = none) :
    handleRateLimitExceeded config st now (some s) =
      (WaitOutcome.waited 0 none, st) := by
  unfold handleRateLimitExceeded
  simp [jsTruthyString, hne, hnan, jsMul, jsGt, jsTimeoutDelay]

/-- Witness for C10: `retry-after: "abc"` yields an immediate return with a
`NaN` wait. -/
theorem handleRateLimitExceeded_nan_retryAfter_witness :
    (("abc" == "") = false ∧ jsParseInt "abc" = none) ∧
    handleRateLimitExceeded ⟨true, 50, 500⟩ ⟨some 5000, some 0, some 5000⟩ 0 (some "abc") =
      (WaitOutcome.waited 0 none, ⟨some 5000, some 0, some 5000⟩) :=
  ⟨⟨by decide, by decide⟩,
   handleRateLimitExceeded_nan_retryAfter ⟨true, 50, 500⟩ ⟨some 5000, some 0, some 5000⟩ 0
     "abc" (by decide) (by decide)⟩

/-- Counterexample to claim C5 as stated: with all three headers present but
`x-ratelimit-remaining` unparseable (`"abc"`), the claim requires the state
to be left completely unchanged, but the code replaces it (storing `NaN` for
the unparseable field). -/
theorem updateRateLimit_unparseable_headers_changes_state :
    updateRateLimitFromHeaders
        { remaining := some "abc", reset := some "100", limit := some "50" }
        { remaining := some 5000, resetTime := some 0, limit := some 5000 } ≠
      { remaining := some 5000, resetTime := some 0, limit := some 5000 } ∧
    updateRateLimitFromHeaders
        { remaining := some "abc", reset := some "100", limit := some "50" }
        { remaining := some 5000, resetTime := some 0, limit := some 5000 } =
      { remaining := none, resetTime := some 100000, limit := some 50 } := by
  constructor
  · decide
  · decide

/-- Claim C5 (amended): `updateRateLimitFromHeaders` replaces the entire
state with the parsed values if and only if all three headers are present
(parseability is not checked: unparseable present values are stored as
`NaN`), leaves the state completely unchanged otherwise, and for every
sequence of calls whose last applied call has a complete header triple the
final state equals exactly that last call's parsed values. -/
theorem updateRateLimitFromHeaders_replace_iff_present :
    (∀ (st : RateLimitInfo) (r rt l : String),
        updateRateLimitFromHeaders
            { remaining := some r, reset := some rt, limit := some l } st =
          parsedRateLimitInfo r rt l) ∧
    (∀ (h : RateLimitHeaders) (st : RateLimitInfo), h.complete = false →
        updateRateLimitFromHeaders h st = st) ∧
    (∀ (l : List RateLimitHeaders) (st : RateLimitInfo) (r rt li : String),
        applyHeaderUpdates st
            (l ++ [{ remaining := some r, reset := some rt, limit := some li }]) =
          parsedRateLimitInfo r rt li) := by
  refine ⟨fun st r rt l => rfl, ?_, ?_⟩
  · intro h st hc
    obtain ⟨hr, hrt, hl⟩ := h
    cases hr <;> cases hrt <;> cases hl <;>
      simp_all [RateLimitHeaders.complete, updateRateLimitFromHeaders]
  · intro l st r rt li
    unfold applyHeaderUpdates
    rw [List.foldl_append]
    rfl

/-- Witness for C5 (amended): an incomplete triple (missing limit) leaves the
state untouched, and a two-element all-complete sequence ends in exactly the
last call's parsed values. -/
theorem updateRateLimitFromHeaders_replace_iff_present_witness :
    updateRateLimitFromHeaders
        { remaining := some "10", reset := some "100", limit := none }
        { remaining := some 5000, resetTime := some 0, limit := some 5000 } =
      { remaining := some 5000, resetTime := some 0, limit := some 5000 } ∧
    applyHeaderUpdates { remaining := some 5000, resetTime := some 0, limit := some 5000 }
        [{ remaining := some "1", reset := some "2", limit := some "3" },
         { remaining := some "7", reset := some "8", limit := some "9" }] =
      parsedRateLimitInfo "7" "8" "9" :=
  ⟨updateRateLimitFromHeaders_replace_iff_present.2.1
      { remaining := some "10", reset := some "100", limit := none }
      { remaining := some 5000, resetTime := some 0, limit := some 5000 } (by decide),
   updateRateLimitFromHeaders_replace_iff_present.2.2
      [{ remaining := some "1", reset := some "2", limit := some "3" }]
      { remaining := some 5000, resetTime := some 0, limit := some 5000 } "7" "8" "9"⟩

/-- Claim C6: `handleRateLimitExceeded` computes its wait as
`retryAfter * 1000` when a (non-empty, numeric) retry-after value is
supplied, else as `resetTime - now + resetBufferMs` when the reset time is in
the future, else as `resetBufferMs` alone; a computed wait above 120000 ms
fails fast with a GITHUB_API-category error without waiting, any other wait
blocks for the computed time.  The state is returned unchanged. -/
theorem handleRateLimitExceeded_spec (config : RateLimitingConfiguration)
    (st : RateLimitInfo) (now : Int) :
    (∀ (s : String) (k : Int), (s == "") = false → jsParseInt s = some k →
       (k * 1000 ≤ 120000 →
          handleRateLimitExceeded config st now (some s) =
            (WaitOutcome.waited (jsTimeoutDelay (some (k * 1000))) (some (k * 1000)), st)) ∧
       (120000 < k * 1000 →
          handleRateLimitExceeded config st now (some s) =
            (WaitOutcome.failFast
              (createGithubApiError "GitHub API rate limit exceeded, retry not possible"),
             st) ∧
          (createGithubApiError
            "GitHub API rate limit exceeded, retry not possible").errorCategory =
              ErrorCategoryType.CATEGORY_GITHUB_API)) ∧
    (∀ reset : Int, st.resetTime = some reset → now < reset →
       (reset - now + config.resetBufferMs ≤ 120000 →
          handleRateLimitExceeded config st now none =
            (WaitOutcome.waited (jsTimeoutDelay (some (reset - now + config.resetBufferMs)))
              (some (reset - now + config.resetBufferMs)), st)) ∧
       (120000 < reset - now + config.resetBufferMs →
          handleRateLimitExceeded config st now none =
            (WaitOutcome.failFast
              (createGithubApiError "GitHub API rate limit exceeded, retry not possible"),
             st))) ∧
    (∀ reset : Int, st.resetTime = some reset → reset ≤ now →
       (config.resetBufferMs ≤ 120000 →
          handleRateLimitExceeded config st now none =
            (WaitOutcome.waited (jsTimeoutDelay (some config.resetBufferMs))
              (some config.resetBufferMs), st)) ∧
       (120000 < config.resetBufferMs →
          handleRateLimitExceeded config st now none =
            (WaitOutcome.failFast
              (createGithubApiError "GitHub API rate limit exceeded, retry not possible"),
             st))) := by
  refine ⟨?_, ?_, ?_⟩
  · intro s k hne hk
    unfold handleRateLimitExceeded
    simp only [jsTruthyString, hne, Bool.not_false, Option.getD_some, hk, jsMul, jsGt,
      decide_eq_true_eq, if_true]
    constructor
    · intro hle
      rw [if_neg (by omega)]
    · intro hgt
      rw [if_pos (by omega)]
      exact ⟨rfl, rfl⟩
  · intro reset hreset hfut
    obtain ⟨r0, rt0, l0⟩ := st
    obtain rfl : rt0 = some reset := by simpa using hreset
    refine ⟨?_, ?_⟩ <;> intro hbound <;>
      (unfold handleRateLimitExceeded
       simp only [jsTruthyString, jsGt, jsAdd, jsSub, jsMul, decide_eq_true_eq]
       split_ifs <;> first | rfl | omega | (exfalso; omega) | (exfalso; simp_all <;> omega))
  · intro reset hreset hpast
    obtain ⟨r0, rt0, l0⟩ := st
    obtain rfl : rt0 = some reset := by simpa using hreset
    refine ⟨?_, ?_⟩ <;> intro hbound <;>
      (unfold handleRateLimitExceeded
       simp only [jsTruthyString, jsGt, jsAdd, jsSub, jsMul, decide_eq_true_eq]
       split_ifs <;> first | rfl | omega | (exfalso; omega) | (exfalso; simp_all <;> omega))

/-- Witness for C6: the spec's scenario `retry-after: "5"` blocks for exactly
5000 ms. -/
theorem handleRateLimitExceeded_spec_witness :
    handleRateLimitExceeded ⟨true, 50, 500⟩ ⟨some 5000, some 0, some 5000⟩ 0 (some "5") =
      (WaitOutcome.waited 5000 (some 5000), ⟨some 5000, some 0, some 5000⟩) := by
  have h := ((handleRateLimitExceeded_spec ⟨true, 50, 500⟩
    ⟨some 5000, some 0, some 5000⟩ 0).1 "5" 5 (by decide) (by decide)).1 (by decide)
  simpa using h

theorem timeoutStep_inv (s : TimeoutState) (e : TimeoutEvent) (h : TimeoutInv s) :
    TimeoutInv (timeoutStep s e) := by
  obtain ⟨h1, h2, h3, h4⟩ := h
  cases e <;> unfold timeoutStep TimeoutInv <;> split_ifs <;> simp_all <;> omega

theorem runTimeoutFrom_inv (tr : List TimeoutEvent) (s : TimeoutState)
    (h : TimeoutInv s) : TimeoutInv (runTimeoutFrom s tr) := by
  induction tr generalizing s with
  | nil => exact h
  | cons e rest ih => exact ih (timeoutStep s e) (timeoutStep_inv s e h)

/-- Events never change `resolveCount` once the timer is disarmed, and the
timer stays disarmed. -/
theorem runTimeoutFrom_inactive (tr : List TimeoutEvent) (s : TimeoutState)
    (h : s.timerActive = false) :
    (runTimeoutFrom s tr).resolveCount = s.resolveCount ∧
    (runTimeoutFrom s tr).timerActive = false := by
  induction tr generalizing s with
  | nil => exact ⟨rfl, h⟩
  | cons e rest ih =>
      have hstep : (timeoutStep s e).resolveCount = s.resolveCount ∧
          (timeoutStep s e).timerActive = false := by
        cases e <;> unfold timeoutStep <;> split_ifs <;> simp_all
      have := ih (timeoutStep s e) hstep.2
      exact ⟨this.1.trans hstep.1, this.2⟩

/-- A trace without `cancelCall` leaves the `cancelled` flag untouched. -/
theorem runTimeoutFrom_no_cancel (tr : List TimeoutEvent) (s : TimeoutState)
    (h : TimeoutEvent.cancelCall ∉ tr) :
    (runTimeoutFrom s tr).cancelled = s.cancelled := by
  induction tr generalizing s with
  | nil => rfl
  | cons e rest ih =>
      have he : e ≠ TimeoutEvent.cancelCall := fun hc => h (hc ▸ List.mem_cons_self e rest)
      have hrest : TimeoutEvent.cancelCall ∉ rest := fun hc => h (List.mem_cons_of_mem e hc)
      have hstep : (timeoutStep s e).cancelled = s.cancelled := by
        cases e with
        | timerFires => unfold timeoutStep; split_ifs <;> rfl
        | cancelCall => exact absurd rfl he
      exact (ih (timeoutStep s e) hrest).trans hstep

/-- A trace without `timerFires` never changes `resolveCount`. -/
theorem runTimeoutFrom_no_fire (tr : List TimeoutEvent) (s : TimeoutState)
    (h : TimeoutEvent.timerFires ∉ tr) :
    (runTimeoutFrom s tr).resolveCount = s.resolveCount := by
  induction tr generalizing s with
  | nil => rfl
  | cons e rest ih =>
      have he : e ≠ TimeoutEvent.timerFires := fun hc => h (hc ▸ List.mem_cons_self e rest)
      have hrest : TimeoutEvent.timerFires ∉ rest := fun hc => h (List.mem_cons_of_mem e hc)
      have hstep : (timeoutStep s e).resolveCount = s.resolveCount := by
        cases e with
        | timerFires => exact absurd rfl he
        | cancelCall => unfold timeoutStep; split_ifs <;> rfl
      exact (ih (timeoutStep s e) hrest).trans hstep

/-- Claim C7: the promise of `createSafeTimeout` resolves at most once in any
event sequence; it resolves exactly once when the timer fires with no prior
cancellation (whatever happens afterwards); it never resolves when `cancel`
is called before the timer fires; `cancel` is idempotent; and a `cancel`
after the timer has fired has no effect on resolution. -/
theorem createSafeTimeout_spec :
    (∀ tr : List TimeoutEvent, (runTimeout tr).resolveCount ≤ 1) ∧
    (∀ pre post : List TimeoutEvent, TimeoutEvent.cancelCall ∉ pre →
        (runTimeout (pre ++ TimeoutEvent.timerFires :: post)).resolveCount = 1) ∧
    (∀ pre post : List TimeoutEvent, TimeoutEvent.timerFires ∉ pre →
        (runTimeout (pre ++ TimeoutEvent.cancelCall :: post)).resolveCount = 0) ∧
    (∀ s : TimeoutState,
        timeoutStep (timeoutStep s TimeoutEvent.cancelCall) TimeoutEvent.cancelCall =
          timeoutStep s TimeoutEvent.cancelCall) ∧
    (∀ pre post : List TimeoutEvent,
        (runTimeout (pre ++ TimeoutEvent.timerFires :: TimeoutEvent.cancelCall :: post)).resolveCount =
          (runTimeout (pre ++ TimeoutEvent.timerFires :: post)).resolveCount) := by
  have hinv0 : TimeoutInv initialTimeoutState := by
    refine ⟨fun _ => rfl, ?_, ?_, ?_⟩ <;> simp [initialTimeoutState]
  refine ⟨?_, ?_, ?_, ?_, ?_⟩
  · intro tr
    exact (runTimeoutFrom_inv tr initialTimeoutState hinv0).2.2.1
  · intro pre post hpre
    unfold runTimeout
    rw [runTimeoutFrom, List.foldl_append]
    set s := runTimeoutFrom initialTimeoutState pre with hs
    have hcan : s.cancelled = false := runTimeoutFrom_no_cancel pre initialTimeoutState hpre
    have hinv : TimeoutInv s := runTimeoutFrom_inv pre initialTimeoutState hinv0
    show (runTimeoutFrom (timeoutStep s TimeoutEvent.timerFires) post).resolveCount = 1
    cases hact : s.timerActive with
    | true =>
        have hcount : s.resolveCount = 0 := hinv.1 hact
        have hstep : (timeoutStep s TimeoutEvent.timerFires).resolveCount = 1 ∧
            (timeoutStep s TimeoutEvent.timerFires).timerActive = false := by
          unfold timeoutStep
          simp [hact, hcan, hcount]
        have := runTimeoutFrom_inactive post (timeoutStep s TimeoutEvent.timerFires) hstep.2
        rw [this.1, hstep.1]
    | false =>
        have hcount : s.resolveCount = 1 := hinv.2.1 hcan hact
        have hstep : timeoutStep s TimeoutEvent.timerFires = s := by
          unfold timeoutStep
          simp [hact]
        rw [hstep]
        have := runTimeoutFrom_inactive post s hact
        rw [this.1, hcount]
  · intro pre post hpre
    unfold runTimeout
    rw [runTimeoutFrom, List.foldl_append]
    set s := runTimeoutFrom initialTimeoutState pre with hs
    have hcount : s.resolveCount = 0 := runTimeoutFrom_no_fire pre initialTimeoutState hpre
    have hinv : TimeoutInv s := runTimeoutFrom_inv pre initialTimeoutState hinv0
    show (runTimeoutFrom (timeoutStep s TimeoutEvent.cancelCall) post).resolveCount = 0
    have hstep : (timeoutStep s TimeoutEvent.cancelCall).resolveCount = 0 ∧
        (timeoutStep s TimeoutEvent.cancelCall).timerActive = false := by
      unfold timeoutStep
      cases hc : s.cancelled with
      | true => simpa [hc, hcount] using hinv.2.2.2 hc
      | false => simp [hc, hcount]
    have := runTimeoutFrom_inactive post (timeoutStep s TimeoutEvent.cancelCall) hstep.2
    rw [this.1, hstep.1]
  · intro s
    unfold timeoutStep
    split_ifs with h1 h2 <;> simp_all
  · intro pre post
    unfold runTimeout
    rw [runTimeoutFrom, runTimeoutFrom, List.foldl_append, List.foldl_append]
    set s := runTimeoutFrom initialTimeoutState pre with hs
    show (runTimeoutFrom (timeoutStep (timeoutStep s TimeoutEvent.timerFires)
        TimeoutEvent.cancelCall) post).resolveCount =
      (runTimeoutFrom (timeoutStep s TimeoutEvent.timerFires) post).resolveCount
    set f := timeoutStep s TimeoutEvent.timerFires with hf
    have hfInactive : f.timerActive = false := by
      rw [hf]
      unfold timeoutStep
      split_ifs with h <;> simp_all
    have hcstep : (timeoutStep f TimeoutEvent.cancelCall).resolveCount = f.resolveCount ∧
        (timeoutStep f TimeoutEvent.cancelCall).timerActive = false := by
      unfold timeoutStep
      split_ifs <;> simp_all
    have h1 := runTimeoutFrom_inactive post (timeoutStep f TimeoutEvent.cancelCall) hcstep.2
    have h2 := runTimeoutFrom_inactive post f hfInactive
    rw [h1.1, h2.1, hcstep.1]

/-- Witness for C7: a plain fire resolves once; `cancel` before the fire
suppresses resolution. -/
theorem createSafeTimeout_spec_witness :
    (runTimeout [TimeoutEvent.timerFires]).resolveCount = 1 ∧
    (runTimeout [TimeoutEvent.cancelCall, TimeoutEvent.timerFires]).resolveCount = 0 :=
  ⟨createSafeTimeout_spec.2.1 [] [] (by simp),
   createSafeTimeout_spec.2.2.1 [] [TimeoutEvent.timerFires] (by simp)⟩

end GithubMcpServer

namespace GithubMcpServer

/-- Claim C8 (refuting evaluation): under the JavaScript microtask rules
embedded in `mutexStep`, the same-tick double-acquire schedule — which
contains no `callRelease` at all — is fully enabled and ends with BOTH
callers inside their critical sections.  The promise-chaining `AsyncMutex`
therefore does not provide mutual exclusion for overlapping `acquire()`
calls issued in the same synchronous tick: the second acquirer proceeds
without waiting for the first acquirer's release callback. -/
theorem asyncMutex_same_tick_double_acquire :
    (∀ c : Bool, MutexLabel.callRelease c ∉ sameTickDoubleAcquire) ∧
    runMutexSchedule sameTickDoubleAcquire =
      some { mutex := { lockingGen := 2, fulfilled := [0], nextGen := 3, locked := true }
             callerA := CallerPhase.inCriticalSection 1
             callerB := CallerPhase.inCriticalSection 2 } ∧
    (CallerPhase.inCriticalSection 1).isInCriticalSection = true ∧
    (CallerPhase.inCriticalSection 2).isInCriticalSection = true := by
  refine ⟨?_, by decide, rfl, rfl⟩
  intro c
  cases c <;> decide

end GithubMcpServer
namespace GithubMcpServer

theorem executeLoop_always_transient_nonquota {T : Type}
    (config : RateLimitingConfiguration) (st : RateLimitInfo) (now : Nat → Int)
    (opName : String) (e : Nat → ThrownError) (maxRetries : Nat) (baseDelay : Int)
    (htrans : ∀ n, isTransientError (classifyError (e n)) = true)
    (hnq : ∀ n, (classifyError (e n)).isRateLimitError = false)
    (hcheck : ∀ n, (checkRateLimit config st (now n)).fst.isFailFast = false) :
    ∀ (k retryCount : Nat), retryCount + k = maxRetries →
      invocationCount (executeLoop config st now opName
          (fun n => (CallResult.err (e n) : CallResult T)) maxRetries baseDelay retryCount).fst = k + 1 ∧
      backoffDelays (executeLoop config st now opName
          (fun n => (CallResult.err (e n) : CallResult T)) maxRetries baseDelay retryCount).fst =
        (List.range k).map (fun i => baseDelay * 2 ^ (retryCount + 1 + i)) ∧
      (executeLoop config st now opName
          (fun n => (CallResult.err (e n) : CallResult T)) maxRetries baseDelay retryCount).snd =
        ExecResult.classifiedError (handleGitHubApiError (e maxRetries) opName) := by
  intro k
  induction k with
  | zero =>
      intro retryCount hk
      have heq : retryCount = maxRetries := by omega
      subst heq
      rw [executeLoop]
      rcases hc : (checkRateLimit config st (now retryCount)).fst with _ | w | e2
      · dsimp only
        rw [dif_neg (fun hco => absurd hco.2 (by omega))]
        refine ⟨rfl, rfl, rfl⟩
      · dsimp only
        rw [dif_neg (fun hco => absurd hco.2 (by omega))]
        refine ⟨rfl, rfl, rfl⟩
      · have := hcheck retryCount
        rw [hc] at this
        exact absurd this (by simp [CheckOutcome.isFailFast])
  | succ k ih =>
      intro retryCount hk
      have hlt : retryCount < maxRetries := by omega
      rw [executeLoop]
      rcases hc : (checkRateLimit config st (now retryCount)).fst with _ | w | e2
      case failFast =>
        have := hcheck retryCount
        rw [hc] at this
        exact absurd this (by simp [CheckOutcome.isFailFast])
      all_goals {
        dsimp only
        rw [dif_pos ⟨htrans retryCount, hlt⟩]
        simp only [hnq retryCount, Bool.false_eq_true, if_false]
        obtain ⟨ih1, ih2, ih3⟩ := ih (retryCount + 1) (by omega)
        refine ⟨?_, ?_, ih3⟩
        · simp only [invocationCount, List.filter, List.length_cons] at ih1 ⊢
          omega
        · simp only [backoffDelays, List.filterMap] at ih2 ⊢
          rw [ih2]
          rw [List.range_succ_eq_map]
          simp only [List.map_cons, List.map_map]
          refine congrArg₂ _ (by norm_num) ?_
          apply List.map_congr_left
          intro a _
          simp only [Function.comp]
          refine congrArg _ ?_
          refine congrArg _ ?_
          omega
      }

end GithubMcpServer

namespace GithubMcpServer

/-- Claim C4: the executor classifies an error as transient exactly when its
status code is at least 500, equals 429, or equals 403 with a message
indicating API quota exhaustion; and a terminal error (not transient) is
surfaced as a GITHUB_API-classified error after exactly one invocation, with
no backoff or quota wait. -/
theorem transient_classification_and_terminal_once :
    (∀ err : ThrownError,
        isTransientError (classifyError err) = specTransientCriterion (classifyError err)) ∧
    (∀ (T : Type) (config : RateLimitingConfiguration) (st : RateLimitInfo)
        (now : Nat → Int) (opName : String) (calls : Nat → CallResult T)
        (err : ThrownError),
        calls 0 = CallResult.err err →
        isTransientError (classifyError err) = false →
        (checkRateLimit config st (now 0)).fst.isFailFast = false →
        executeWithRateLimiting config st now opName calls =
          ([RetryEvent.rateLimitCheck (checkRateLimit config st (now 0)).fst,
            RetryEvent.invocation 0],
           ExecResult.classifiedError (handleGitHubApiError err opName)) ∧
        (handleGitHubApiError err opName).errorCategory =
          ErrorCategoryType.CATEGORY_GITHUB_API) := by
  constructor
  · intro err
    cases err <;> rfl
  · intro T config st now opName calls err hcalls hterm hcheck
    refine ⟨?_, rfl⟩
    rw [executeWithRateLimiting, executeLoop]
    rcases hc : (checkRateLimit config st (now 0)).fst with _ | w | e2
    · rw [hcalls]
      dsimp only
      rw [dif_neg (fun hco => by rw [hterm] at hco; exact absurd hco.1 (by simp))]
    · rw [hcalls]
      dsimp only
      rw [dif_neg (fun hco => by rw [hterm] at hco; exact absurd hco.1 (by simp))]
    · rw [hc] at hcheck
      exact absurd hcheck (by simp [CheckOutcome.isFailFast])

/-- Witness for C4: a status-400 terminal error with rate limiting disabled
is invoked once and wrapped as a GITHUB_API error. -/
theorem transient_classification_and_terminal_once_witness :
    executeWithRateLimiting ⟨false, 50, 500⟩ ⟨some 5000, some 0, some 5000⟩
        (fun _ => 0) "op"
        (fun _ => (CallResult.err (ThrownError.apiError (some 400) (some "bad") none) :
          CallResult Unit)) =
      ([RetryEvent.rateLimitCheck CheckOutcome.proceed, RetryEvent.invocation 0],
       ExecResult.classifiedError
         (handleGitHubApiError (ThrownError.apiError (some 400) (some "bad") none) "op")) := by
  have h := (transient_classification_and_terminal_once.2 Unit ⟨false, 50, 500⟩
    ⟨some 5000, some 0, some 5000⟩ (fun _ => 0) "op"
    (fun _ => CallResult.err (ThrownError.apiError (some 400) (some "bad") none))
    (ThrownError.apiError (some 400) (some "bad") none) rfl (by decide) rfl).1
  simpa using h

/-- Counterexample to claim C2 as stated: this call thunk always throws a
transient error (a 403 quota error carrying `retry-after: 200`), yet the
executor invokes it exactly once — the delegated quota wait of 200000 ms
exceeds the 120000 ms ceiling, so `handleRateLimitExceeded` throws out of
the `catch` block before any further attempt. -/
theorem always_transient_quota_one_invocation :
    isTransientError (classifyError (ThrownError.apiError (some 403)
        (some "API rate limit exceeded") (some "200"))) = true ∧
    invocationCount (executeWithRateLimiting ⟨false, 50, 500⟩
        ⟨some 5000, some 0, some 5000⟩ (fun _ => 0) "op"
        (fun _ => (CallResult.err (ThrownError.apiError (some 403)
          (some "API rate limit exceeded") (some "200")) : CallResult Unit))).fst = 1 ∧
    (executeWithRateLimiting ⟨false, 50, 500⟩
        ⟨some 5000, some 0, some 5000⟩ (fun _ => 0) "op"
        (fun _ => (CallResult.err (ThrownError.apiError (some 403)
          (some "API rate limit exceeded") (some "200")) : CallResult Unit))).snd =
      ExecResult.uncaughtError (createGithubApiError
        "GitHub API rate limit exceeded, retry not possible") := by
  refine ⟨by decide, ?_, ?_⟩ <;>
    (rw [executeWithRateLimiting, executeLoop]
     rfl)

/-- Claim C2 (amended): for every call thunk that always throws a transient
non-quota error (e.g. status 500), the executor with `maxRetries = 3`
invokes the thunk exactly 4 times (the first attempt plus exactly 3 retries)
and then surfaces a GITHUB_API-classified error wrapping the last thrown
error.  (A thunk always throwing a 403 quota error can instead stop after
fewer attempts when the delegated wait fail-fasts.)  The attempt counter is
a local of one executor call by construction, never shared. -/
theorem executeWithRateLimiting_transient_four_attempts
    (T : Type) (config : RateLimitingConfiguration) (st : RateLimitInfo)
    (now : Nat → Int) (opName : String) (e : Nat → ThrownError)
    (htrans : ∀ n, isTransientError (classifyError (e n)) = true)
    (hnq : ∀ n, (classifyError (e n)).isRateLimitError = false)
    (hcheck : ∀ n, (checkRateLimit config st (now n)).fst.isFailFast = false) :
    invocationCount (executeWithRateLimiting config st now opName
        (fun n => (CallResult.err (e n) : CallResult T))).fst = 4 ∧
    (executeWithRateLimiting config st now opName
        (fun n => (CallResult.err (e n) : CallResult T))).snd =
      ExecResult.classifiedError (handleGitHubApiError (e 3) opName) ∧
    (handleGitHubApiError (e 3) opName).errorCategory =
      ErrorCategoryType.CATEGORY_GITHUB_API := by
  have h := executeLoop_always_transient_nonquota (T := T) config st now opName e
    MAX_RETRY_ATTEMPTS BASE_RETRY_DELAY_MS htrans hnq hcheck 3 0 rfl
  exact ⟨h.1, h.2.2, rfl⟩

/-- Witness for C2 (amended): an always-500 thunk with rate limiting
disabled is invoked exactly 4 times. -/
theorem executeWithRateLimiting_transient_four_attempts_witness :
    invocationCount (executeWithRateLimiting ⟨false, 50, 500⟩
        ⟨some 5000, some 0, some 5000⟩ (fun _ => 0) "op"
        (fun _ => (CallResult.err (ThrownError.apiError (some 500) (some "boom") none) :
          CallResult Unit))).fst = 4 :=
  (executeWithRateLimiting_transient_four_attempts Unit ⟨false, 50, 500⟩
    ⟨some 5000, some 0, some 5000⟩ (fun _ => 0) "op"
    (fun _ => ThrownError.apiError (some 500) (some "boom") none)
    (fun _ => rfl) (fun _ => rfl) (fun _ => rfl)).1

/-- Counterexample to claim C3 as stated: with the code's
`BASE_RETRY_DELAY_MS = 1000` and an always-failing status-500 thunk, the
three inter-attempt delays are 2000, 4000, 8000 ms — not the claimed
`baseDelay, baseDelay*2, baseDelay*4` = 1000, 2000, 4000 ms.  The code
increments `retryCount` before computing `delay = baseDelay * 2^retryCount`. -/
theorem backoff_delays_not_claimed_sequence :
    backoffDelays (executeWithRateLimiting ⟨false, 50, 500⟩
        ⟨some 5000, some 0, some 5000⟩ (fun _ => 0) "op"
        (fun _ => (CallResult.err (ThrownError.apiError (some 500) (some "boom") none) :
          CallResult Unit))).fst = [2000, 4000, 8000] ∧
    ([2000, 4000, 8000] : List Int) ≠ [1000, 2000, 4000] := by
  have h := (executeLoop_always_transient_nonquota ⟨false, 50, 500⟩
    ⟨some 5000, some 0, some 5000⟩ (fun _ => 0) "op"
    (fun _ => ThrownError.apiError (some 500) (some "boom") none)
    MAX_RETRY_ATTEMPTS BASE_RETRY_DELAY_MS (T := Unit)
    (fun _ => rfl) (fun _ => rfl) (fun _ => rfl) 3 0 rfl).2.1
  refine ⟨?_, by decide⟩
  rw [executeWithRateLimiting, h]
  decide

/-- Claim C3 (amended): for a non-quota transient failure the executor's
i-th inter-attempt backoff delay (i = 1, 2, 3) equals
`BASE_RETRY_DELAY_MS * 2^i`; concretely, with an always-failing status-500
thunk the three delays are 2000, 4000 and 8000 ms. -/
theorem executeWithRateLimiting_backoff_delays
    (T : Type) (config : RateLimitingConfiguration) (st : RateLimitInfo)
    (now : Nat → Int) (opName : String) (e : Nat → ThrownError)
    (htrans : ∀ n, isTransientError (classifyError (e n)) = true)
    (hnq : ∀ n, (classifyError (e n)).isRateLimitError = false)
    (hcheck : ∀ n, (checkRateLimit config st (now n)).fst.isFailFast = false) :
    backoffDelays (executeWithRateLimiting config st now opName
        (fun n => (CallResult.err (e n) : CallResult T))).fst =
      (List.range 3).map (fun i => BASE_RETRY_DELAY_MS * 2 ^ (i + 1)) ∧
    (List.range 3).map (fun i => BASE_RETRY_DELAY_MS * 2 ^ (i + 1)) =
      [2000, 4000, 8000] := by
  have h := (executeLoop_always_transient_nonquota (T := T) config st now opName e
    MAX_RETRY_ATTEMPTS BASE_RETRY_DELAY_MS htrans hnq hcheck 3 0 rfl).2.1
  refine ⟨?_, by decide⟩
  rw [executeWithRateLimiting, h]
  apply List.map_congr_left
  intro a _
  refine congrArg _ (congrArg _ ?_)
  omega

/-- Witness for C3 (amended): the concrete always-500 run has delays
2000, 4000, 8000 ms. -/
theorem executeWithRateLimiting_backoff_delays_witness :
    backoffDelays (executeWithRateLimiting ⟨false, 50, 500⟩
        ⟨some 5000, some 0, some 5000⟩ (fun _ => 0) "op"
        (fun _ => (CallResult.err (ThrownError.apiError (some 500) (some "boom") none) :
          CallResult Unit))).fst = [2000, 4000, 8000] := by
  have h := executeWithRateLimiting_backoff_delays Unit ⟨false, 50, 500⟩
    ⟨some 5000, some 0, some 5000⟩ (fun _ => 0) "op"
    (fun _ => ThrownError.apiError (some 500) (some "boom") none)
    (fun _ => rfl) (fun _ => rfl) (fun _ => rfl)
  rw [h.1, h.2]

end GithubMcpServer
